import Mathlib

/-!
Verification of `src/evalInScope.py`.

The program is a single function:

    def eval_in_scope(code, context_as_scope):
        return eval(code, {"__builtins__": __builtins__}, context_as_scope)

We give a shallow embedding of the fragment of Python's expression grammar
that the repository and its specification exercise: integer literals, bare
names, the binary operators `+`, `-`, `*`, parenthesised expressions,
function calls, and parenthesised assignment expressions `(name := e)`
(the walrus operator, Python's only way to mutate the locals mapping from
inside `eval` of an expression).  Evaluation threads the caller's scope
dictionary through the computation, exactly as CPython's `eval` reads and
writes the `locals` dictionary it is handed.

Machine-level caveats: Python integers are arbitrary precision, so they are
modelled by `Int`; Python dictionaries are modelled by association lists with
CPython's update discipline (updating an existing key keeps its position,
a fresh key is appended).
-/

/-- A runtime value of the modelled Python fragment: an integer, or a
built-in function object (identified by its `__builtins__` key, e.g. the
object `max`). -/
inductive Value where
  | int : Int → Value
  | builtin : String → Value
deriving DecidableEq, Repr

/-- The Python exceptions the modelled fragment can raise.  `eval_in_scope`
installs no handler, so these propagate verbatim to the caller; the spec's
`EvaluationError` is this propagated exception together with its payload.
`parseError` models `SyntaxError` raised by compilation of the string,
`nameError` models `NameError: name n is not defined`, and `typeError`
models `TypeError` (bad operand types, calling a non-callable, or a call
shape outside the modelled fragment). -/
inductive PyError where
  | parseError : PyError
  | nameError : String → PyError
  | typeError : String → PyError
deriving DecidableEq, Repr

/-- The locals dictionary handed to `eval`: an association list from
identifier to value, first binding wins on lookup. -/
abbrev Scope := List (String × Value)

/-- Tokens of the modelled expression grammar. -/
inductive Tok where
  | intLit : Nat → Tok
  | ident : String → Tok
  | plus : Tok
  | minus : Tok
  | star : Tok
  | lparen : Tok
  | rparen : Tok
  | comma : Tok
  | walrus : Tok
deriving DecidableEq, Repr

/-- Read a run of decimal digits, accumulating its value. -/
def readNat (acc : Nat) : List Char → Nat × List Char
  | [] => (acc, [])
  | c :: cs =>
    if c.isDigit then readNat (acc * 10 + (c.toNat - 48)) cs
    else (acc, c :: cs)

/-- Read a run of identifier characters (letters, digits, underscore). -/
def readIdent (acc : List Char) : List Char → String × List Char
  | [] => (String.mk acc.reverse, [])
  | c :: cs =>
    if c.isAlphanum || c = '_' then readIdent (c :: acc) cs
    else (String.mk acc.reverse, c :: cs)

/-- Tokenizer for the modelled fragment (fuel-indexed; every step consumes at
least one character, so `length + 1` fuel always suffices).  `none` models a
`SyntaxError` during compilation of the expression string. -/
def tokenize : Nat → List Char → Option (List Tok)
  | _, [] => some []
  | 0, _ :: _ => none
  | fuel + 1, c :: cs =>
    if c = ' ' then tokenize fuel cs
    else if c = '+' then (tokenize fuel cs).map (Tok.plus :: ·)
    else if c = '-' then (tokenize fuel cs).map (Tok.minus :: ·)
    else if c = '*' then (tokenize fuel cs).map (Tok.star :: ·)
    else if c = '(' then (tokenize fuel cs).map (Tok.lparen :: ·)
    else if c = ')' then (tokenize fuel cs).map (Tok.rparen :: ·)
    else if c = ',' then (tokenize fuel cs).map (Tok.comma :: ·)
    else if c = ':' then
      match cs with
      | '=' :: cs2 => (tokenize fuel cs2).map (Tok.walrus :: ·)
      | _ => none
    else if c.isDigit then
      let p := readNat 0 (c :: cs)
      (tokenize fuel p.2).map (Tok.intLit p.1 :: ·)
    else if c.isAlpha || c = '_' then
      let p := readIdent [] (c :: cs)
      (tokenize fuel p.2).map (Tok.ident p.1 :: ·)
    else none

/-- The arithmetic binary operators of the modelled fragment. -/
inductive ArithOp where
  | add : ArithOp
  | sub : ArithOp
  | mul : ArithOp
deriving DecidableEq, Repr

/-- Abstract syntax of the modelled Python expression fragment (the shapes
CPython's `ast` module would call Constant, Name, BinOp, Call and
NamedExpr). -/
inductive Expr where
  | intLit : Nat → Expr
  | name : String → Expr
  | binop : ArithOp → Expr → Expr → Expr
  | call : Expr → List Expr → Expr
  | assign : String → Expr → Expr
deriving Repr

mutual

/-- Recursive-descent parsing of `+`/`-` chains (lowest precedence). -/
def parseAdd : Nat → List Tok → Option (Expr × List Tok)
  | 0, _ => none
  | fuel + 1, ts =>
    match parseMul fuel ts with
    | none => none
    | some (e, ts2) => parseAddRest fuel e ts2

/-- Left-associative continuation of a `+`/`-` chain. -/
def parseAddRest : Nat → Expr → List Tok → Option (Expr × List Tok)
  | 0, _, _ => none
  | fuel + 1, acc, Tok.plus :: ts =>
    match parseMul fuel ts with
    | none => none
    | some (e, ts2) => parseAddRest fuel (Expr.binop ArithOp.add acc e) ts2
  | fuel + 1, acc, Tok.minus :: ts =>
    match parseMul fuel ts with
    | none => none
    | some (e, ts2) => parseAddRest fuel (Expr.binop ArithOp.sub acc e) ts2
  | _ + 1, acc, ts => some (acc, ts)

/-- Recursive-descent parsing of `*` chains. -/
def parseMul : Nat → List Tok → Option (Expr × List Tok)
  | 0, _ => none
  | fuel + 1, ts =>
    match parsePrimary fuel ts with
    | none => none
    | some (e, ts2) => parseMulRest fuel e ts2

/-- Left-associative continuation of a `*` chain. -/
def parseMulRest : Nat → Expr → List Tok → Option (Expr × List Tok)
  | 0, _, _ => none
  | fuel + 1, acc, Tok.star :: ts =>
    match parsePrimary fuel ts with
    | none => none
    | some (e, ts2) => parseMulRest fuel (Expr.binop ArithOp.mul acc e) ts2
  | _ + 1, acc, ts => some (acc, ts)

/-- An atom followed by any number of call suffixes `(...)`. -/
def parsePrimary : Nat → List Tok → Option (Expr × List Tok)
  | 0, _ => none
  | fuel + 1, ts =>
    match parseAtom fuel ts with
    | none => none
    | some (e, ts2) => parseCalls fuel e ts2

/-- Call suffixes: `f(...)`, `f(...)(...)`, ... -/
def parseCalls : Nat → Expr → List Tok → Option (Expr × List Tok)
  | 0, _, _ => none
  | fuel + 1, f, Tok.lparen :: Tok.rparen :: ts =>
    parseCalls fuel (Expr.call f []) ts
  | fuel + 1, f, Tok.lparen :: ts =>
    (match parseArgs fuel ts with
     | none => none
     | some (args, ts2) =>
       match ts2 with
       | Tok.rparen :: ts3 => parseCalls fuel (Expr.call f args) ts3
       | _ => none)
  | _ + 1, f, ts => some (f, ts)

/-- A non-empty comma-separated argument list. -/
def parseArgs : Nat → List Tok → Option (List Expr × List Tok)
  | 0, _ => none
  | fuel + 1, ts =>
    match parseAdd fuel ts with
    | none => none
    | some (e, ts2) =>
      match ts2 with
      | Tok.comma :: ts3 =>
        (match parseArgs fuel ts3 with
         | none => none
         | some (es, ts4) => some (e :: es, ts4))
      | _ => some ([e], ts2)

/-- An atom: integer literal, name, parenthesised assignment expression
`(name := e)`, or parenthesised expression. -/
def parseAtom : Nat → List Tok → Option (Expr × List Tok)
  | 0, _ => none
  | _ + 1, Tok.intLit n :: ts => some (Expr.intLit n, ts)
  | _ + 1, Tok.ident s :: ts => some (Expr.name s, ts)
  | fuel + 1, Tok.lparen :: Tok.ident s :: Tok.walrus :: ts =>
    (match parseAdd fuel ts with
     | none => none
     | some (e, ts2) =>
       match ts2 with
       | Tok.rparen :: ts3 => some (Expr.assign s e, ts3)
       | _ => none)
  | fuel + 1, Tok.lparen :: ts =>
    (match parseAdd fuel ts with
     | none => none
     | some (e, ts2) =>
       match ts2 with
       | Tok.rparen :: ts3 => some (e, ts3)
       | _ => none)
  | _ + 1, _ => none

end

/-- Compile an expression string: tokenize, parse, and require that the whole
token stream is consumed.  `none` models `SyntaxError`.  (Each parsing step
spends one unit of fuel and a full descent touches at most five
nonterminals per consumed token, so the fuel `8 * (length + 1)` is never
the reason a well-formed string of this fragment is rejected.) -/
def parseExpr (code : String) : Option Expr :=
  let cs := code.data
  match tokenize (cs.length + 1) cs with
  | none => none
  | some ts =>
    match parseAdd (8 * (ts.length + 1)) ts with
    | some (e, []) => some e
    | _ => none

example : parseExpr "a + b" = some (Expr.binop ArithOp.add (Expr.name "a") (Expr.name "b")) := by rfl
example : parseExpr "a +" = none := by rfl
example : parseExpr "" = none := by rfl
example : parseExpr "max(x, y)" = some (Expr.call (Expr.name "max") [Expr.name "x", Expr.name "y"]) := by rfl
example : parseExpr "a + b + c" = some (Expr.binop ArithOp.add (Expr.binop ArithOp.add (Expr.name "a") (Expr.name "b")) (Expr.name "c")) := by rfl
example : parseExpr "b * 2" = some (Expr.binop ArithOp.mul (Expr.name "b") (Expr.intLit 2)) := by rfl
example : parseExpr "(x := 5)" = some (Expr.assign "x" (Expr.intLit 5)) := by rfl
example : parseExpr "max" = some (Expr.name "max") := by rfl

/-- Model of the globals argument `{"__builtins__": __builtins__}` on line 47
of `evalInScope.py`: name lookup inside `eval` falls through the locals and
(here empty apart from `__builtins__` itself) globals to the FULL Python
built-in namespace.  We list the members of `__builtins__` that the claims
touch — including the capability-bearing objects `open`, `eval`, `exec` and
`__import__`, which CPython does expose through this call — each mapped to
the corresponding built-in function object. -/
def pythonBuiltins : Scope :=
  [("abs", Value.builtin "abs"), ("max", Value.builtin "max"),
   ("min", Value.builtin "min"), ("len", Value.builtin "len"),
   ("pow", Value.builtin "pow"), ("sum", Value.builtin "sum"),
   ("print", Value.builtin "print"), ("open", Value.builtin "open"),
   ("eval", Value.builtin "eval"), ("exec", Value.builtin "exec"),
   ("__import__", Value.builtin "__import__")]

/-- Modelled from the spec: the "fixed, minimal set of globally available
built-in operations (e.g. `max`, `min`, `abs`)" that section 4.1 says name
resolution may fall through to — the closed whitelist section 9 requires.
This definition follows the spec's words, for comparison with the source's
`pythonBuiltins`. -/
def spec_builtin_whitelist : List String := ["max", "min", "abs"]

/-- CPython `LOAD_NAME` resolution as configured by line 47: the locals
dictionary (the caller's `context_as_scope`) first, then the built-ins. -/
def resolveName (s : Scope) (n : String) : Option Value :=
  match List.lookup n s with
  | some v => some v
  | none => List.lookup n pythonBuiltins

/-- CPython dictionary update (`STORE_NAME`): an existing key keeps its
position and gets the new value, a fresh key is appended. -/
def setKey (s : Scope) (k : String) (v : Value) : Scope :=
  match s with
  | [] => [(k, v)]
  | (k2, v2) :: rest =>
    if k2 == k then (k, v) :: rest else (k2, v2) :: setKey rest k v

/-- Python's binary arithmetic on the modelled values: defined on integers,
`TypeError` otherwise (e.g. `3 + max`). -/
def applyArith (op : ArithOp) (va vb : Value) : Except PyError Value :=
  match va, vb with
  | Value.int x, Value.int y =>
    Except.ok (Value.int
      (match op with
       | ArithOp.add => x + y
       | ArithOp.sub => x - y
       | ArithOp.mul => x * y))
  | _, _ => Except.error (PyError.typeError "unsupported operand types for binary operator")

/-- Calling a built-in function object.  The claims exercise `max`, `min`
and `abs` on integers; any other call shape is outside the modelled
fragment and is mapped to a `TypeError` marker (no claim depends on it). -/
def applyBuiltin (f : String) (args : List Value) : Except PyError Value :=
  match f, args with
  | "max", [Value.int a, Value.int b] => Except.ok (Value.int (max a b))
  | "min", [Value.int a, Value.int b] => Except.ok (Value.int (min a b))
  | "abs", [Value.int a] => Except.ok (Value.int (if a < 0 then -a else a))
  | _, _ => Except.error (PyError.typeError "call outside the modelled fragment")

/-- Exception-propagating sequencing over the threaded locals dictionary:
if the first step raised, the exception propagates with the dictionary as
that step left it; otherwise the continuation runs on the step's value and
dictionary.  This is the control flow of CPython's expression bytecode. -/
def andThen {α β : Type} (r : Except PyError α × Scope)
    (k : α → Scope → Except PyError β × Scope) : Except PyError β × Scope :=
  match r with
  | (Except.error err, s) => (Except.error err, s)
  | (Except.ok v, s) => k v s

mutual

/-- Evaluation of the modelled fragment, threading the locals dictionary the
way CPython's `eval` reads (`LOAD_NAME`) and writes (`STORE_NAME`, reached
only through the walrus operator) the dictionary passed on line 47.  The
returned scope is the dictionary's state when control returns to the
caller, whether with a value or with an exception. -/
def evalExpr : Expr → Scope → Except PyError Value × Scope
  | Expr.intLit n, s => (Except.ok (Value.int n), s)
  | Expr.name n, s =>
    (match resolveName s n with
     | some v => (Except.ok v, s)
     | none => (Except.error (PyError.nameError n), s))
  | Expr.binop op a b, s =>
    andThen (evalExpr a s) fun va s1 =>
      andThen (evalExpr b s1) fun vb s2 => (applyArith op va vb, s2)
  | Expr.call f args, s =>
    andThen (evalExpr f s) fun vf s1 =>
      andThen (evalArgs args s1) fun vs s2 =>
        (match vf with
         | Value.builtin name => (applyBuiltin name vs, s2)
         | Value.int _ => (Except.error (PyError.typeError "int object is not callable"), s2))
  | Expr.assign n e, s =>
    andThen (evalExpr e s) fun v s1 => (Except.ok v, setKey s1 n v)

/-- Left-to-right evaluation of a call's argument list. -/
def evalArgs : List Expr → Scope → Except PyError (List Value) × Scope
  | [], s => (Except.ok [], s)
  | e :: rest, s =>
    andThen (evalExpr e s) fun v s1 =>
      andThen (evalArgs rest s1) fun vs s2 => (Except.ok (v :: vs), s2)

end

/-- The embedding of `eval_in_scope` (lines 19-47 of `evalInScope.py`):
compile the string (raising `SyntaxError` on failure), then evaluate it
with the caller's `context_as_scope` as locals and the full built-in
namespace reachable behind it.  The first component is what the call
returns or raises; the second is the caller's dictionary afterwards (the
dictionary is aliased, so the caller observes any mutation). -/
def eval_in_scope (code : String) (context_as_scope : Scope) :
    Except PyError Value × Scope :=
  match parseExpr code with
  | none => (Except.error PyError.parseError, context_as_scope)
  | some e => evalExpr e context_as_scope

example : (eval_in_scope "a + b" [("a", Value.int 2), ("b", Value.int 3)]).1 = Except.ok (Value.int 5) := by rfl
example : (eval_in_scope "max(x, y)" [("x", Value.int 10), ("y", Value.int 20)]).1 = Except.ok (Value.int 20) := by rfl
example : (eval_in_scope "a + b + c" [("a", Value.int 11), ("b", Value.int 22), ("c", Value.int 33)]).1 = Except.ok (Value.int 66) := by rfl
example : (eval_in_scope "b * 2" [("a", Value.int 11), ("b", Value.int 22), ("c", Value.int 33)]).1 = Except.ok (Value.int 44) := by rfl
example : (eval_in_scope "unknown_name" []).1 = Except.error (PyError.nameError "unknown_name") := by rfl
example : (eval_in_scope "max" [("max", Value.int 5)]).1 = Except.ok (Value.int 5) := by rfl
example : (eval_in_scope "a +" [("a", Value.int 1)]).1 = Except.error PyError.parseError := by rfl
example : (eval_in_scope "max(1, 2)" []).1 = Except.ok (Value.int 2) := by rfl
example : (eval_in_scope "(x := 5)" []).2 = [("x", Value.int 5)] := by rfl
example : (eval_in_scope "open" []).1 = Except.ok (Value.builtin "open") := by rfl

/-- Python frame semantics of the call on line 47: `eval` receives explicit
globals and locals, so the frame in which the expression runs resolves names
only against those two mappings (and the built-ins behind the globals).  The
local bindings of whatever function calls `eval_in_scope` are a separate
frame, modelled by the `callerLocals` argument, which the callee cannot
reach. -/
def eval_in_scope_from_caller (_callerLocals : Scope) (code : String)
    (context_as_scope : Scope) : Except PyError Value × Scope :=
  eval_in_scope code context_as_scope

/-- C1: an expression referencing a name that is neither in the scope nor in
the built-in namespace raises: the evaluation returns the `NameError`
carrying the offending name as its cause, nothing is swallowed or replaced
by a default value; in particular `eval_in_scope "unknown_name" {}` raises
exactly that error. -/
theorem unknown_name_raises (s : Scope) (n : String)
    (h1 : List.lookup n s = none) (h2 : List.lookup n pythonBuiltins = none) :
    (evalExpr (Expr.name n) s).1 = Except.error (PyError.nameError n)
    ∧ (eval_in_scope "unknown_name" []).1
        = Except.error (PyError.nameError "unknown_name") := by
  refine ⟨?_, rfl⟩
  simp [evalExpr, resolveName, h1, h2]

/-- Witness for C1 at the spec's own input. -/
theorem unknown_name_raises_witness :
    (List.lookup "unknown_name" ([] : Scope) = none
      ∧ List.lookup "unknown_name" pythonBuiltins = none)
    ∧ (evalExpr (Expr.name "unknown_name") []).1
        = Except.error (PyError.nameError "unknown_name") :=
  ⟨⟨rfl, by rfl⟩,
   (unknown_name_raises [] "unknown_name" rfl (by rfl)).1⟩

/-- C4: the scope shadows built-ins — a name bound in the scope resolves to
the scope's value even when a built-in of the same name exists, and in
particular `eval_in_scope "max" {max: 5}` returns `5`, not the built-in
function object. -/
theorem scope_shadows_builtins (s : Scope) (n : String) (v : Value)
    (h : List.lookup n s = some v) :
    (evalExpr (Expr.name n) s).1 = Except.ok v
    ∧ (eval_in_scope "max" [("max", Value.int 5)]).1 = Except.ok (Value.int 5) := by
  refine ⟨?_, rfl⟩
  simp [evalExpr, resolveName, h]

/-- Witness for C4 at the spec's own input, where `max` is also a built-in. -/
theorem scope_shadows_builtins_witness :
    (List.lookup "max" [("max", Value.int 5)] = some (Value.int 5)
      ∧ (List.lookup "max" pythonBuiltins).isSome)
    ∧ (evalExpr (Expr.name "max") [("max", Value.int 5)]).1
        = Except.ok (Value.int 5) :=
  ⟨⟨rfl, by rfl⟩,
   (scope_shadows_builtins [("max", Value.int 5)] "max" (Value.int 5) rfl).1⟩

/-- C5: for all integers x and y, `eval_in_scope "a + b" {a: x, b: y}` returns
`x + y`. -/
theorem add_two_scope_names (x y : Int) :
    (eval_in_scope "a + b" [("a", Value.int x), ("b", Value.int y)]).1
      = Except.ok (Value.int (x + y)) := rfl

/-- C6: a string the compiler rejects makes `eval_in_scope` raise the
`SyntaxError` for every scope, rather than return a value; in particular
`eval_in_scope "a +" {a: 1}` raises. -/
theorem invalid_expression_raises (code : String) (s : Scope)
    (h : parseExpr code = none) :
    (eval_in_scope code s).1 = Except.error PyError.parseError := by
  simp [eval_in_scope, h]

/-- Witness for C6 at the spec's own input. -/
theorem invalid_expression_raises_witness :
    parseExpr "a +" = none
    ∧ (eval_in_scope "a +" [("a", Value.int 1)]).1 = Except.error PyError.parseError :=
  ⟨rfl, invalid_expression_raises "a +" [("a", Value.int 1)] rfl⟩

/-- C7: built-in calls work and `max` is commutative in its scope-bound
arguments — swapping the values bound to `x` and `y` gives the same outcome
for every pair of integers, the spec's two concrete instances both return
`20`, and with the empty scope `max(1, 2)` returns `2`. -/
theorem max_builtin_call_commutative :
    (∀ a b : Int,
      (eval_in_scope "max(x, y)" [("x", Value.int a), ("y", Value.int b)]).1
        = (eval_in_scope "max(x, y)" [("x", Value.int b), ("y", Value.int a)]).1)
    ∧ (eval_in_scope "max(x, y)" [("x", Value.int 10), ("y", Value.int 20)]).1
        = Except.ok (Value.int 20)
    ∧ (eval_in_scope "max(x, y)" [("x", Value.int 20), ("y", Value.int 10)]).1
        = Except.ok (Value.int 20)
    ∧ (eval_in_scope "max(1, 2)" []).1 = Except.ok (Value.int 2) := by
  refine ⟨?_, by rfl, by rfl, by rfl⟩
  intro a b
  have h1 : (eval_in_scope "max(x, y)" [("x", Value.int a), ("y", Value.int b)]).1
      = Except.ok (Value.int (max a b)) := rfl
  have h2 : (eval_in_scope "max(x, y)" [("x", Value.int b), ("y", Value.int a)]).1
      = Except.ok (Value.int (max b a)) := rfl
  rw [h1, h2, max_comm]

/-- C10: the empty expression string is rejected by compilation, so
`eval_in_scope "" scope` raises for every scope rather than returning a
value. -/
theorem empty_expression_raises (s : Scope) :
    (eval_in_scope "" s).1 = Except.error PyError.parseError := rfl

/-- C3: the outcome depends only on the expression string, the scope and the
built-in namespace.  Two calls with equal arguments made from callers whose
own frames hold different local bindings produce the same outcome, and any
bare name that evaluates successfully took its value from the scope or from
the built-in namespace — there is nowhere else to resolve from. -/
theorem caller_locals_invisible (l1 l2 : Scope) (code : String) (s : Scope) :
    eval_in_scope_from_caller l1 code s = eval_in_scope_from_caller l2 code s
    ∧ ∀ n v, (evalExpr (Expr.name n) s).1 = Except.ok v →
        List.lookup n s = some v ∨ List.lookup n pythonBuiltins = some v := by
  refine ⟨rfl, ?_⟩
  intro n v h
  simp only [evalExpr] at h
  rcases hr : resolveName s n with _ | w
  · rw [hr] at h
    simp at h
  · rw [hr] at h
    simp at h
    unfold resolveName at hr
    rcases hs : List.lookup n s with _ | u
    · rw [hs] at hr
      rw [← h]
      exact Or.inr hr
    · rw [hs] at hr
      injection hr with hu
      refine Or.inl ?_
      rw [hu, h]

/-- C2 counterexample: with the empty scope, the name `open` — which is no
key of the scope and no member of the minimal whitelist the spec describes —
nevertheless resolves successfully to the built-in function object, because
line 47 hands `eval` the full `__builtins__` namespace. -/
theorem full_builtins_exposed_counterexample :
    (eval_in_scope "open" []).1 = Except.ok (Value.builtin "open")
    ∧ List.lookup "open" ([] : Scope) = none
    ∧ "open" ∉ spec_builtin_whitelist := by
  refine ⟨rfl, rfl, ?_⟩
  simp [spec_builtin_whitelist]

/-- C2 amended: name resolution beyond the caller-supplied scope falls
through to the FULL Python built-in namespace, not to a minimal closed
whitelist — a bare name evaluates successfully exactly when it is a key of
the scope or of `__builtins__`, and that namespace reaches
capability-bearing built-ins such as `open` and `eval` that no minimal
whitelist of arithmetic helpers would contain. -/
theorem name_resolution_full_namespace (s : Scope) (n : String) :
    ((∃ v, (evalExpr (Expr.name n) s).1 = Except.ok v)
      ↔ ((List.lookup n s).isSome ∨ (List.lookup n pythonBuiltins).isSome))
    ∧ (List.lookup "open" pythonBuiltins).isSome
    ∧ (List.lookup "eval" pythonBuiltins).isSome
    ∧ "open" ∉ spec_builtin_whitelist
    ∧ "eval" ∉ spec_builtin_whitelist := by
  refine ⟨?_, by rfl, by rfl, by simp [spec_builtin_whitelist], by simp [spec_builtin_whitelist]⟩
  simp only [evalExpr]
  unfold resolveName
  rcases hs : List.lookup n s with _ | u
  · rcases hb : List.lookup n pythonBuiltins with _ | w
    · simp
    · simp
  · simp

mutual

/-- True when the expression contains no assignment expression, i.e. its
evaluation never executes `STORE_NAME` — the only instruction of the
modelled fragment that writes to the locals dictionary. -/
def noAssign : Expr → Bool
  | Expr.intLit _ => true
  | Expr.name _ => true
  | Expr.binop _ a b => noAssign a && noAssign b
  | Expr.call f args => noAssign f && noAssignList args
  | Expr.assign _ _ => false

/-- `noAssign` over an argument list. -/
def noAssignList : List Expr → Bool
  | [] => true
  | e :: es => noAssign e && noAssignList es

end

/-- If a step leaves the dictionary at `s` and the continuation started at
`s` leaves it there as well, the sequenced computation leaves it at `s`. -/
theorem andThen_snd {α β : Type} (r : Except PyError α × Scope)
    (k : α → Scope → Except PyError β × Scope) (s : Scope)
    (hr : r.2 = s) (hk : ∀ v, (k v s).2 = s) : (andThen r k).2 = s := by
  rcases r with ⟨rv, rs⟩
  cases rv with
  | error err => exact hr
  | ok v =>
    have hr2 : rs = s := hr
    subst hr2
    exact hk v

mutual

/-- Evaluating an assignment-free expression leaves the locals dictionary
exactly as it was, whether the evaluation returns a value or raises. -/
theorem evalExpr_noAssign_scope : ∀ (e : Expr) (s : Scope),
    noAssign e = true → (evalExpr e s).2 = s
  | Expr.intLit _, _, _ => rfl
  | Expr.name n, s, _ => by
      simp only [evalExpr]
      cases resolveName s n <;> rfl
  | Expr.binop op a b, s, h => by
      rw [noAssign, Bool.and_eq_true] at h
      simp only [evalExpr]
      exact andThen_snd _ _ s (evalExpr_noAssign_scope a s h.1)
        (fun va => andThen_snd _ _ s (evalExpr_noAssign_scope b s h.2)
          (fun vb => rfl))
  | Expr.call f args, s, h => by
      rw [noAssign, Bool.and_eq_true] at h
      simp only [evalExpr]
      refine andThen_snd _ _ s (evalExpr_noAssign_scope f s h.1)
        (fun vf => andThen_snd _ _ s (evalArgs_noAssign_scope args s h.2)
          (fun vs => ?_))
      cases vf with
      | int m => rfl
      | builtin name => rfl
  | Expr.assign n e, s, h => by
      rw [noAssign] at h
      exact absurd h (by simp)

/-- `evalExpr_noAssign_scope` lifted to argument lists. -/
theorem evalArgs_noAssign_scope : ∀ (es : List Expr) (s : Scope),
    noAssignList es = true → (evalArgs es s).2 = s
  | [], _, _ => rfl
  | e :: rest, s, h => by
      rw [noAssignList, Bool.and_eq_true] at h
      simp only [evalArgs]
      exact andThen_snd _ _ s (evalExpr_noAssign_scope e s h.1)
        (fun v => andThen_snd _ _ s (evalArgs_noAssign_scope rest s h.2)
          (fun vs => rfl))

end

/-- C9: for every expression that performs no assignment, the scope mapping
passed to `eval_in_scope` is unchanged after the call — same keys, same
values, whether the call returns a result or raises. -/
theorem scope_unchanged_no_assignment (code : String) (s : Scope) (e : Expr)
    (hp : parseExpr code = some e) (hna : noAssign e = true) :
    (eval_in_scope code s).2 = s := by
  unfold eval_in_scope
  rw [hp]
  exact evalExpr_noAssign_scope e s hna

/-- Witness for C9 on the spec's expression `a + b`. -/
theorem scope_unchanged_no_assignment_witness :
    (parseExpr "a + b" = some (Expr.binop ArithOp.add (Expr.name "a") (Expr.name "b"))
      ∧ noAssign (Expr.binop ArithOp.add (Expr.name "a") (Expr.name "b")) = true)
    ∧ (eval_in_scope "a + b" [("a", Value.int 1), ("b", Value.int 2)]).2
        = [("a", Value.int 1), ("b", Value.int 2)] :=
  ⟨⟨rfl, rfl⟩,
   scope_unchanged_no_assignment "a + b" [("a", Value.int 1), ("b", Value.int 2)]
     (Expr.binop ArithOp.add (Expr.name "a") (Expr.name "b")) rfl rfl⟩

/-- An assignment expression genuinely mutates the dictionary (so C9's
assignment-free hypothesis is not vacuous): `(x := 5)` adds the binding. -/
theorem assignment_mutates_scope :
    (eval_in_scope "(x := 5)" []).2 = [("x", Value.int 5)]
    ∧ noAssign (Expr.assign "x" (Expr.intLit 5)) = false := ⟨rfl, rfl⟩

/-- Two scopes are extensionally equal when they bind the same names to the
same values — CPython dict equality, which ignores insertion order. -/
def extEq (s1 s2 : Scope) : Prop :=
  ∀ n, List.lookup n s1 = List.lookup n s2

/-- Association-list lookup on a cons cell, with the boolean key test
turned into a propositional one. -/
theorem lookup_cons (k2 : String) (v2 : Value) (tl : Scope) (n : String) :
    List.lookup n ((k2, v2) :: tl) = if n = k2 then some v2 else List.lookup n tl := by
  by_cases h : n = k2
  · subst h
    simp [List.lookup]
  · have hb : (n == k2) = false := beq_eq_false_iff_ne.mpr h
    simp [List.lookup, hb, h]

/-- Lookup after a `STORE_NAME` update: the stored key reads back the stored
value, every other key is untouched. -/
theorem lookup_setKey (s : Scope) (k : String) (v : Value) (n : String) :
    List.lookup n (setKey s k v) = if n = k then some v else List.lookup n s := by
  induction s with
  | nil =>
    rw [show setKey [] k v = [(k, v)] from rfl, lookup_cons]
  | cons hd tl ih =>
    obtain ⟨k2, v2⟩ := hd
    by_cases hk : k2 = k
    · subst hk
      by_cases hn : n = k2 <;> simp [setKey, lookup_cons, hn]
    · have hk2 : (k2 == k) = false := beq_eq_false_iff_ne.mpr hk
      by_cases hn : n = k2
      · subst hn
        have hnk : ¬n = k := hk
        simp [setKey, hk2, lookup_cons, hnk]
      · simp [setKey, hk2, lookup_cons, hn, ih]

/-- `STORE_NAME` of the same key and value preserves extensional equality. -/
theorem extEq_setKey {s1 s2 : Scope} (h : extEq s1 s2) (k : String) (v : Value) :
    extEq (setKey s1 k v) (setKey s2 k v) := by
  intro n
  rw [lookup_setKey, lookup_setKey]
  by_cases hn : n = k <;> simp [hn, h n]

/-- Name resolution only reads the scope through lookup, so it respects
extensional equality. -/
theorem resolveName_extEq {s1 s2 : Scope} (h : extEq s1 s2) (n : String) :
    resolveName s1 n = resolveName s2 n := by
  unfold resolveName
  rw [h n]

/-- Congruence of `andThen` under extensional equality of the threaded
dictionaries: equal step outcomes and a congruent continuation give equal
sequenced outcomes. -/
theorem andThen_congr {α β : Type} {r1 r2 : Except PyError α × Scope}
    {k1 k2 : α → Scope → Except PyError β × Scope}
    (h1 : r1.1 = r2.1) (h2 : extEq r1.2 r2.2)
    (hk : ∀ v t1 t2, extEq t1 t2 →
      (k1 v t1).1 = (k2 v t2).1 ∧ extEq (k1 v t1).2 (k2 v t2).2) :
    (andThen r1 k1).1 = (andThen r2 k2).1
    ∧ extEq (andThen r1 k1).2 (andThen r2 k2).2 := by
  rcases r1 with ⟨rv1, rs1⟩
  rcases r2 with ⟨rv2, rs2⟩
  have hv : rv1 = rv2 := h1
  subst hv
  cases rv1 with
  | error err => exact ⟨rfl, h2⟩
  | ok v => exact hk v rs1 rs2 h2

mutual

/-- Evaluation respects extensional equality of the scope: scopes binding
the same names to the same values give the same result and extensionally
equal final dictionaries. -/
theorem evalExpr_extEq : ∀ (e : Expr) (s1 s2 : Scope), extEq s1 s2 →
    (evalExpr e s1).1 = (evalExpr e s2).1
    ∧ extEq (evalExpr e s1).2 (evalExpr e s2).2
  | Expr.intLit n, s1, s2, h => ⟨rfl, h⟩
  | Expr.name n, s1, s2, h => by
      simp only [evalExpr]
      rw [resolveName_extEq h n]
      cases resolveName s2 n <;> exact ⟨rfl, h⟩
  | Expr.binop op a b, s1, s2, h => by
      simp only [evalExpr]
      refine andThen_congr (evalExpr_extEq a s1 s2 h).1 (evalExpr_extEq a s1 s2 h).2 ?_
      intro va t1 t2 ht
      refine andThen_congr (evalExpr_extEq b t1 t2 ht).1 (evalExpr_extEq b t1 t2 ht).2 ?_
      intro vb u1 u2 hu
      exact ⟨rfl, hu⟩
  | Expr.call f args, s1, s2, h => by
      simp only [evalExpr]
      refine andThen_congr (evalExpr_extEq f s1 s2 h).1 (evalExpr_extEq f s1 s2 h).2 ?_
      intro vf t1 t2 ht
      refine andThen_congr (evalArgs_extEq args t1 t2 ht).1 (evalArgs_extEq args t1 t2 ht).2 ?_
      intro vs u1 u2 hu
      cases vf with
      | int m => exact ⟨rfl, hu⟩
      | builtin name => exact ⟨rfl, hu⟩
  | Expr.assign n e, s1, s2, h => by
      simp only [evalExpr]
      refine andThen_congr (evalExpr_extEq e s1 s2 h).1 (evalExpr_extEq e s1 s2 h).2 ?_
      intro v t1 t2 ht
      exact ⟨rfl, extEq_setKey ht n v⟩

/-- `evalExpr_extEq` lifted to argument lists. -/
theorem evalArgs_extEq : ∀ (es : List Expr) (s1 s2 : Scope), extEq s1 s2 →
    (evalArgs es s1).1 = (evalArgs es s2).1
    ∧ extEq (evalArgs es s1).2 (evalArgs es s2).2
  | [], s1, s2, h => ⟨rfl, h⟩
  | e :: rest, s1, s2, h => by
      simp only [evalArgs]
      refine andThen_congr (evalExpr_extEq e s1 s2 h).1 (evalExpr_extEq e s1 s2 h).2 ?_
      intro v t1 t2 ht
      refine andThen_congr (evalArgs_extEq rest t1 t2 ht).1 (evalArgs_extEq rest t1 t2 ht).2 ?_
      intro vs u1 u2 hu
      exact ⟨rfl, hu⟩

end

/-- C8: evaluation is pure, deterministic and stateless: the outcome is a
function of the expression string and the scope mapping alone — two calls
with equal strings and with scopes binding the same names to the same
values (CPython dict equality, insertion order irrelevant) produce the
same outcome, no state survives between calls, and each call yields
exactly one result or exactly one error. -/
theorem eval_pure_deterministic (code : String) (s1 s2 : Scope)
    (h : ∀ n, List.lookup n s1 = List.lookup n s2) :
    (eval_in_scope code s1).1 = (eval_in_scope code s2).1
    ∧ ((∃ v, (eval_in_scope code s1).1 = Except.ok v)
        ∨ (∃ err, (eval_in_scope code s1).1 = Except.error err)) := by
  have hmain : (eval_in_scope code s1).1 = (eval_in_scope code s2).1 := by
    unfold eval_in_scope
    cases hp : parseExpr code with
    | none => rfl
    | some e => exact (evalExpr_extEq e s1 s2 h).1
  refine ⟨hmain, ?_⟩
  cases hr : (eval_in_scope code s1).1 with
  | error err => exact Or.inr ⟨err, rfl⟩
  | ok v => exact Or.inl ⟨v, rfl⟩

/-- Witness for C8: the same scope mapping presented in two insertion
orders gives the same outcome for `a + b`. -/
theorem eval_pure_deterministic_witness :
    (∀ n, List.lookup n [("a", Value.int 1), ("b", Value.int 2)]
        = List.lookup n [("b", Value.int 2), ("a", Value.int 1)])
    ∧ (eval_in_scope "a + b" [("a", Value.int 1), ("b", Value.int 2)]).1
        = (eval_in_scope "a + b" [("b", Value.int 2), ("a", Value.int 1)]).1 := by
  have hl : ∀ n, List.lookup n [("a", Value.int 1), ("b", Value.int 2)]
      = List.lookup n [("b", Value.int 2), ("a", Value.int 1)] := by
    intro n
    simp only [lookup_cons]
    by_cases h1 : n = "a"
    · subst h1
      have hab : ¬("a" : String) = "b" := by decide
      rw [if_pos rfl, if_neg hab, if_pos rfl]
    · by_cases h2 : n = "b"
      · subst h2
        have hba : ¬("b" : String) = "a" := by decide
        rw [if_neg hba, if_pos rfl, if_pos rfl]
      · rw [if_neg h1, if_neg h2, if_neg h2, if_neg h1]
  exact ⟨hl, (eval_pure_deterministic "a + b" _ _ hl).1⟩
